import Mathlib

/-!
webserverc: the request pipeline of `src/main.c`.

A shallow embedding of the request handling of the single-file HTTP server:
the literal matcher `linear_parse`, the process runner `read_process`, and the
body of the accept loop of `main` (called `handle` here).

Bytes are natural numbers.  A memory region is a list of bytes; a pointer into
it is an index, and the loops that advance a pointer carry the bytes from the
pointer onward next to the index.  A load from an address that is not inside
the modelled region has no defined value in C; the model reports it as
`overrun` instead of inventing a byte.  Diagnostic output on stderr (`LOG`, `LOGF`,
`fputs`, `perror`) is not part of the model.
-/

namespace Webserverc

/-! ## Constants of `main` -/

/-- The bytes of a string literal, without the terminating NUL. -/
def bytes (s : String) : List Nat := s.toList.map Char.toNat

/-- `#define MAX_REQUEST_SIZE (1024)` -/
def MAX_REQUEST_SIZE : Nat := 1024

/-- `BadRequest[]` of `main`. -/
def BadRequest : List Nat :=
  bytes "HTTP/1.1 400 Bad Request\r\nContent-Type: text/plain\r\n\r\nBad Request"

/-- `NotFound[]` of `main`. -/
def NotFound : List Nat :=
  bytes "HTTP/1.1 404 Not Found\r\nContent-Type: text/plain\r\n\r\nNot Found"

/-- `InternalServerError[]` of `main`. -/
def InternalServerError : List Nat :=
  bytes "HTTP/1.1 500 Internal Server Error\r\nContent-Type: text/plain\r\n\r\nInternal Server Error"

/-- `XdgMimeCommand[]` of `main`. -/
def XdgMimeCommand : List Nat := bytes "xdg-mime query filetype "

/-- `ResponseFmt[]` of `main`, as written in the source. -/
def ResponseFmt : List Nat := bytes "HTTP/1.1 200 OK\r\nContent-Type: %.*s\r\n\r\n"

/-- The part of `ResponseFmt` before the `%.*s` conversion. -/
def ResponseFmtHead : List Nat := bytes "HTTP/1.1 200 OK\r\nContent-Type: "

/-- The part of `ResponseFmt` after the `%.*s` conversion. -/
def ResponseFmtTail : List Nat := bytes "\r\n\r\n"

/-- `sizeof` of a char array initialised from a literal: its bytes and the NUL. -/
def sizeof (a : List Nat) : Nat := a.length + 1

/-- The number of elements of `request_buffer`:
`MAX_REQUEST_SIZE + sizeof(XdgMimeCommand)`. -/
def REQUEST_BUFFER_SIZE : Nat := MAX_REQUEST_SIZE + sizeof XdgMimeCommand

/-! ## C strings and stores in a region -/

/-- The C string that starts at the head of a region: the bytes before the
first NUL, or `none` when the region ends before a NUL is met. -/
def cstr : List Nat → Option (List Nat)
  | [] => none
  | b :: bs => if b = 0 then some [] else (cstr bs).map (fun t => b :: t)

/-- What `%.*s` prints for a non-negative precision `n`: the bytes before the
first NUL, at most `n` of them; `none` when the region ends first. -/
def cstrN : Nat → List Nat → Option (List Nat)
  | 0, _ => some []
  | _ + 1, [] => none
  | n + 1, b :: bs => if b = 0 then some [] else (cstrN n bs).map (fun t => b :: t)

/-- Store the bytes `src` at offset `off` of the region `dst`
(`memcpy`, `memmove` from a saved copy, `recv`, `fread`).  The region keeps its
length: bytes that would land outside it are not part of the model state. -/
def blit (dst : List Nat) (off : Nat) (src : List Nat) : List Nat :=
  (dst.take off ++ src ++ dst.drop (off + src.length)).take dst.length

/-- `strcpy(dst, src)` for a literal `src`: its bytes and the NUL. -/
def strcpy (dst : List Nat) (src : List Nat) : List Nat :=
  blit dst 0 (src ++ [0])

/-! ## `linear_parse` -/

/-- The result of `linear_parse`. -/
inductive Parse where
  /-- `return NULL` -/
  | null
  /-- `return input`, the cursor as an index into the region -/
  | cursor (p : Nat)
  /-- a comparison loaded a byte outside the region -/
  | overrun
  /-- `assert(*str != 0)` failed -/
  | abort
  deriving DecidableEq, Repr

/-- `strncmp(str, input, len) == 0` for `lit` the `len` bytes of `str` before
its NUL (none of them NUL) and `input` the bytes from the cursor onward.  The
comparison walks both strings and stops at the first difference; `none` when
it loads past the end of the region. -/
def strncmpEq : List Nat → List Nat → Option Bool
  | [], _ => some true
  | _ :: _, [] => none
  | c :: cs, b :: bs => if b = c then strncmpEq cs bs else some false

/-- The first loop of `linear_parse`:
`for (; at_least > 0; --at_least) { if ((strncmp(..) != 0) ^ negate) return NULL; input += len; }`.
`rest` holds the bytes from the cursor `input` onward. -/
def required (lit : List Nat) (negate : Bool) : Nat → List Nat → Nat → Parse
  | 0, _, input => .cursor input
  | at_least + 1, rest, input =>
    match strncmpEq lit rest with
    | none => .overrun
    | some eq =>
      if xor (!eq) negate then .null
      else required lit negate at_least (rest.drop lit.length) (input + lit.length)

/-- The loop of the `else` branch:
`while (maybe_more > 0 && (strncmp(..) == 0) ^ negate) { input += len; --maybe_more; }` -/
def moreBounded (lit : List Nat) (negate : Bool) : Nat → List Nat → Nat → Parse
  | 0, _, input => .cursor input
  | maybe_more + 1, rest, input =>
    match strncmpEq lit rest with
    | none => .overrun
    | some eq =>
      if xor eq negate then
        moreBounded lit negate maybe_more (rest.drop lit.length) (input + lit.length)
      else .cursor input

/-- The loop of the `maybe_more < 0` branch:
`while ((strncmp(..) == 0) ^ negate) { input += len; }`.
The first argument bounds the number of iterations.  Every iteration that goes
on has loaded a byte of `rest` and drops at least one, so `rest.length + 1`
iterations are never used up (`moreUnbounded_fuel`). -/
def moreUnbounded (lit : List Nat) (negate : Bool) : Nat → List Nat → Nat → Parse
  | 0, _, _ => .overrun
  | fuel + 1, rest, input =>
    match strncmpEq lit rest with
    | none => .overrun
    | some eq =>
      if xor eq negate then
        moreUnbounded lit negate fuel (rest.drop lit.length) (input + lit.length)
      else .cursor input

/-- `strlen` of the literal: the bytes of `str` before its first NUL. -/
def literal (str : List Nat) : List Nat := str.takeWhile (fun b => b != 0)

/-- The two loops of `linear_parse` one after the other, for the literal `lit`
and the bytes `rest` from the cursor `input` onward. -/
def parseFrom (lit : List Nat) (at_least : Nat) (maybe_more : Int) (negate : Bool)
    (rest : List Nat) (input : Nat) : Parse :=
  match required lit negate at_least rest input with
  | .cursor p =>
    let rest2 := rest.drop (p - input)
    if maybe_more < 0 then moreUnbounded lit negate (rest2.length + 1) rest2 p
    else moreBounded lit negate maybe_more.toNat rest2 p
  | r => r

/-- `linear_parse(str, at_least, maybe_more, negate, input)` where the pointer
`input` is the index `input` into the region `mem`. -/
def linear_parse (str : List Nat) (at_least : Nat) (maybe_more : Int) (negate : Bool)
    (mem : List Nat) (input : Nat) : Parse :=
  if literal str = [] then .abort
  else parseFrom (literal str) at_least maybe_more negate (mem.drop input) input

/-! ## `read_process` -/

/-- The stream that `popen` hands back: the bytes it delivers before it ends or
breaks, and whether it broke (`ferror`). -/
structure Proc where
  stdout : List Nat
  error : Bool

/-- `read_process(command, output, max_sz)`: the returned count (`-1` on
failure) and the buffer `output` afterwards.  `fread` stores what it got also
when the call then fails; `feof` holds when `fread` met the end of the stream
before `max_sz` bytes. -/
def read_process (popen : List Nat → Option Proc) (command output : List Nat)
    (max_sz : Nat) : Int × List Nat :=
  match popen command with
  | none => (-1, output)
  | some stream =>
    let got := stream.stdout.take max_sz
    let feof := decide (stream.stdout.length < max_sz) && !stream.error
    if !feof || stream.error then (-1, blit output 0 got)
    else ((got.length : Int), blit output 0 got)

/-! ## One iteration of the accept loop of `main` -/

/-- The two static buffers of `main`, which live across iterations. -/
structure State where
  request_buffer : List Nat
  mime_type : List Nat
  deriving DecidableEq, Repr

/-- The zero-initialised buffers at program start. -/
def State.initial : State :=
  ⟨List.replicate REQUEST_BUFFER_SIZE 0, List.replicate MAX_REQUEST_SIZE 0⟩

/-- What the system answers during one iteration. -/
structure Env where
  /-- `open(path, O_RDONLY) >= 0` -/
  openOk : List Nat → Bool
  /-- `st_size` from `fstat`, `none` when it returns a negative value -/
  fstat : Option Nat
  /-- the stream `popen(command, "r")` gives, `none` for `NULL` -/
  popen : List Nat → Option Proc
  /-- whether `malloc` of that many bytes gives a block -/
  mallocOk : Nat → Bool
  /-- the byte found at each offset of the fresh block before it is written -/
  heap : Nat → Nat
  /-- the bytes `read(requested_fd, .., count)` delivers, `none` when it
  returns a negative value -/
  read : Nat → Option (List Nat)
  /-- whether the `send` of the assembled response returns a value `>= 0` -/
  sendOk : Bool

/-- The effects of one iteration. -/
structure Result where
  /-- the byte strings handed to `send` on the client socket, in order -/
  sends : List (List Nat)
  /-- the paths handed to `open` -/
  opens : List (List Nat)
  /-- the commands handed to `popen` -/
  commands : List (List Nat)
  /-- every store into `request_buffer` as (first index, number of bytes) -/
  writes : List (Nat × Nat)
  /-- the handler wrote or read past the end of the `malloc` block -/
  heap_overflow : Bool
  /-- the static buffers when the iteration ends -/
  state : State
  deriving DecidableEq, Repr

/-- How one iteration ends. -/
inductive Handled where
  | done (r : Result)
  /-- a load left the modelled memory: behaviour undefined -/
  | overrun
  /-- `assert` failed -/
  | abort
  deriving DecidableEq, Repr

/-- The error exits: `strcpy(request_buffer, canned); response_sz = sizeof(canned) - 1;`
then `send(client_fd, request_buffer, response_sz, 0)` at `main_loop_err_send_response`. -/
def sendError (buf canned mime : List Nat) (opens commands : List (List Nat))
    (writes : List (Nat × Nat)) (sent : List (List Nat)) (overflow : Bool) : Handled :=
  .done
    { sends := sent ++ [(strcpy buf canned).take (sizeof canned - 1)]
      opens := opens
      commands := commands
      writes := writes ++ [(0, sizeof canned)]
      heap_overflow := overflow
      state := ⟨strcpy buf canned, mime⟩ }

/-- The part of the iteration from `malloc` on (lines 226-260): `buf`, `mime`
are the static buffers at that point, `bytes_read` the count `read_process`
returned (not negative) and `st_size` the size from `fstat`. -/
def respond (env : Env) (buf mime : List Nat) (opens commands : List (List Nat))
    (writes : List (Nat × Nat)) (bytes_read : Int) (st_size : Nat) : Handled :=
  let size := sizeof ResponseFmt - 4 + bytes_read.toNat - 1 + st_size
  if !env.mallocOk size then
    sendError buf InternalServerError mime opens commands writes [] false
  else
    let precision := bytes_read - 1
    match (if precision < 0 then cstr mime else cstrN precision.toNat mime) with
    | none => .overrun
    | some type =>
      let header := ResponseFmtHead ++ type ++ ResponseFmtTail
      let bytes_written := header.length
      match env.read st_size with
      | none =>
        sendError buf InternalServerError mime opens commands writes []
          (decide (size < bytes_written + 1))
      | some delivered =>
        let body := delivered.take st_size
        let response := header ++ body ++
          ((List.range st_size).drop body.length).map
            (fun i => if i = 0 then 0 else env.heap (bytes_written + i))
        let overflow :=
          decide (size < bytes_written + 1) || decide (size < bytes_written + st_size)
        if env.sendOk then
          .done
            { sends := [response]
              opens := opens
              commands := commands
              writes := writes
              heap_overflow := overflow
              state := ⟨buf, mime⟩ }
        else
          sendError buf InternalServerError mime opens commands writes [response] overflow

/-- The part of the iteration from `open` to `read_process` (lines 190-224):
`buf` is `request_buffer` after `*path_end = 0`, `name` the C string at `path`. -/
def serveFile (env : Env) (mime buf : List Nat) (writes : List (Nat × Nat))
    (name : List Nat) (path path_end : Nat) : Handled :=
  if !env.openOk name then sendError buf NotFound mime [name] [] writes [] false
  else
    match env.fstat with
    | none => sendError buf InternalServerError mime [name] [] writes [] false
    | some st_size =>
      let cmd_len := sizeof XdgMimeCommand - 1
      let len := path_end - path
      let b3 := blit buf cmd_len ((buf.drop path).take len)
      let path_end2 := cmd_len + len
      let b4 := blit b3 0 XdgMimeCommand
      let b5 := b4.set path_end2 0
      let w3 := writes ++ [(cmd_len, len), (0, cmd_len), (path_end2, 1)]
      match cstr b5 with
      | none => .overrun
      | some command =>
        match read_process env.popen command mime MAX_REQUEST_SIZE with
        | (bytes_read, mime2) =>
          if bytes_read < 0 then
            sendError b5 InternalServerError mime2 [name] [command] w3 [] false
          else respond env b5 mime2 [name] [command] w3 bytes_read st_size

/-- One iteration of the `while (1)` loop of `main` after `accept` succeeded.
`request` is what `recv` delivers (`none` when it returns a negative value);
at most `MAX_REQUEST_SIZE` bytes of it are stored. -/
def handle (s : State) (request : Option (List Nat)) (env : Env) : Handled :=
  match request with
  | none =>
    .done
      { sends := [], opens := [], commands := [], writes := []
        heap_overflow := false, state := s }
  | some req =>
    let data := req.take MAX_REQUEST_SIZE
    let recv_bytes := data.length
    let b1 := (blit s.request_buffer 0 data).set recv_bytes 0
    let w1 := [(0, recv_bytes), (recv_bytes, 1)]
    match linear_parse (bytes "GET /") 1 0 false b1 0 with
    | .overrun => .overrun
    | .abort => .abort
    | .null => sendError b1 BadRequest s.mime_type [] [] w1 [] false
    | .cursor path =>
      match linear_parse (bytes " ") 1 (-1) true b1 path with
      | .overrun => .overrun
      | .abort => .abort
      | .null => sendError b1 BadRequest s.mime_type [] [] w1 [] false
      | .cursor path_end =>
        let b2 := b1.set path_end 0
        match cstr (b2.drop path) with
        | none => .overrun
        | some name => serveFile env s.mime_type b2 (w1 ++ [(path_end, 1)]) name path path_end

/-- The effects of an iteration that ended, `none` otherwise. -/
def Handled.result : Handled → Option Result
  | .done r => some r
  | _ => none

/-- The request buffer when `popen` is called for the path `p`. -/
def commandBuffer (p T : List Nat) : List Nat :=
  XdgMimeCommand ++ p ++ 0 ::
    (bytes "GET /" ++ p ++ 0 :: T).drop (XdgMimeCommand.length + p.length + 1)

/-- The stores into the request buffer up to `popen`, after `before`. -/
def commandWrites (before : List (Nat × Nat)) (p : List Nat) : List (Nat × Nat) :=
  before ++ [(XdgMimeCommand.length, p.length), (0, XdgMimeCommand.length),
    (XdgMimeCommand.length + p.length, 1)]

/-- The accept loop over successive connections: each iteration starts from
the static buffers the one before left.  The run stops at an iteration that
does not end. -/
def serve : State → List (Option (List Nat) × Env) → List Handled
  | _, [] => []
  | s, (request, env) :: rest =>
    match handle s request env with
    | .done r => .done r :: serve r.state rest
    | h => [h]

/-- The byte strings an iteration handed to `send`, `none` when it did not end. -/
def Handled.sent (h : Handled) : Option (List (List Nat)) := h.result.map (fun r => r.sends)

/-! ## Concrete environments -/

/-- An environment in which every call succeeds: the file holds `hello` and the
tool prints `text/plain` and a newline. -/
def envServing : Env where
  openOk := fun _ => true
  fstat := some 5
  popen := fun _ => some ⟨bytes "text/plain\n", false⟩
  mallocOk := fun _ => true
  heap := fun _ => 0
  read := fun _ => some (bytes "hello")
  sendOk := true

/-- As `envServing`, but no file opens. -/
def envMissing : Env := { envServing with openOk := fun _ => false }

/-- As `envServing`, but the tool prints nothing and exits: `popen` succeeds and
the stream is at its end at once. -/
def envSilent : Env := { envServing with popen := fun _ => some ⟨[], false⟩ }


/-! ## Facts about `strncmp` and the three loops -/

theorem literal_space : literal (bytes " ") = [32] := by decide

theorem literal_get : literal (bytes "GET /") = [71, 69, 84, 32, 47] := by decide

theorem strncmpEq_none_length : ∀ (lit rest : List Nat),
    strncmpEq lit rest = none → rest.length < lit.length
  | [], _, h => by simp [strncmpEq] at h
  | _ :: _, [], _ => by simp
  | c :: cs, b :: bs, h => by
    by_cases hbc : b = c
    · simp only [strncmpEq, hbc, if_true] at h
      have := strncmpEq_none_length cs bs h
      simpa using this
    · simp [strncmpEq, hbc] at h

theorem strncmpEq_true_iff : ∀ (lit rest : List Nat),
    strncmpEq lit rest = some true ↔ lit <+: rest
  | [], rest => by simp [strncmpEq]
  | _ :: _, [] => by simp [strncmpEq]
  | c :: cs, b :: bs => by
    by_cases hbc : b = c
    · subst hbc
      simp only [strncmpEq, if_true, strncmpEq_true_iff cs bs]
      constructor
      · rintro ⟨t, rfl⟩; exact ⟨t, rfl⟩
      · rintro ⟨t, ht⟩
        exact ⟨t, by simpa using ht⟩
    · simp only [strncmpEq, hbc, if_false]
      constructor
      · intro h; cases h
      · rintro ⟨t, ht⟩
        simp at ht
        exact absurd ht.1.symm hbc

theorem strncmpEq_append (lit post : List Nat) : strncmpEq lit (lit ++ post) = some true :=
  (strncmpEq_true_iff lit (lit ++ post)).2 ⟨post, rfl⟩

theorem strncmpEq_of_le (lit rest : List Nat) (h : lit.length ≤ rest.length) :
    strncmpEq lit rest = some (decide (lit <+: rest)) := by
  cases hc : strncmpEq lit rest with
  | none => exact absurd (strncmpEq_none_length lit rest hc) (by omega)
  | some v =>
    cases v with
    | true => simp [(strncmpEq_true_iff lit rest).1 hc]
    | false =>
      have : ¬ lit <+: rest := fun hp => by
        rw [(strncmpEq_true_iff lit rest).2 hp] at hc; cases hc
      simp [this]

theorem moreBounded_ne_null (lit : List Nat) (negate : Bool) :
    ∀ (n : Nat) (rest : List Nat) (input : Nat), moreBounded lit negate n rest input ≠ .null
  | 0, _, _ => by simp [moreBounded]
  | n + 1, rest, input => by
    unfold moreBounded
    cases strncmpEq lit rest with
    | none => simp
    | some v =>
      by_cases hx : xor v negate = true
      · simp only [hx, if_true]; exact moreBounded_ne_null lit negate n _ _
      · simp [hx]

theorem moreUnbounded_ne_null (lit : List Nat) (negate : Bool) :
    ∀ (n : Nat) (rest : List Nat) (input : Nat), moreUnbounded lit negate n rest input ≠ .null
  | 0, _, _ => by simp [moreUnbounded]
  | n + 1, rest, input => by
    unfold moreUnbounded
    cases strncmpEq lit rest with
    | none => simp
    | some v =>
      by_cases hx : xor v negate = true
      · simp only [hx, if_true]; exact moreUnbounded_ne_null lit negate n _ _
      · simp [hx]

/-- The unbounded loop does not depend on its iteration bound once the bound
exceeds the number of bytes left. -/
theorem moreUnbounded_fuel (lit : List Nat) (negate : Bool) (hlit : lit ≠ []) :
    ∀ (f1 f2 : Nat) (rest : List Nat) (input : Nat), rest.length < f1 → rest.length < f2 →
      moreUnbounded lit negate f1 rest input = moreUnbounded lit negate f2 rest input := by
  intro f1
  induction f1 with
  | zero => intro f2 rest input h; omega
  | succ f ih =>
    intro f2 rest input h1 h2
    cases f2 with
    | zero => omega
    | succ g =>
      have hl : 0 < lit.length := List.length_pos.2 hlit
      simp only [moreUnbounded]
      cases hc : strncmpEq lit rest with
      | none => rfl
      | some v =>
        by_cases hx : xor v negate = true
        · simp only [hx, if_true]
          have hne : rest ≠ [] := by
            intro he; subst he
            cases lit with
            | nil => exact hlit rfl
            | cons c cs => simp [strncmpEq] at hc
          have hpos : 0 < rest.length := List.length_pos.2 hne
          have hd : (rest.drop lit.length).length < rest.length := by
            simp only [List.length_drop]; omega
          exact ih g _ _ (by omega) (by omega)
        · simp [hx]


theorem required_null_iff (lit : List Nat) (negate : Bool) (hlit : lit ≠ []) :
    ∀ (at_least : Nat) (rest : List Nat) (input : Nat),
      required lit negate at_least rest input = .null ↔
        ∃ i, i < at_least ∧ strncmpEq lit (rest.drop (i * lit.length)) = some negate := by
  intro at_least
  induction at_least with
  | zero => intro rest input; simp [required]
  | succ n ih =>
    intro rest input
    have hl : 0 < lit.length := List.length_pos.2 hlit
    simp only [required]
    cases hc : strncmpEq lit rest with
    | none =>
      have hshort := strncmpEq_none_length lit rest hc
      simp only [false_iff, reduceCtorEq]
      rintro ⟨i, _, hi⟩
      cases i with
      | zero => simp [hc] at hi
      | succ k =>
        have hnil : rest.drop ((k + 1) * lit.length) = [] := by
          apply List.drop_eq_nil_of_le
          have : lit.length ≤ (k + 1) * lit.length := Nat.le_mul_of_pos_left _ (Nat.succ_pos k)
          omega
        rw [hnil] at hi
        cases lit with
        | nil => exact hlit rfl
        | cons c cs => simp [strncmpEq] at hi
    | some v =>
      by_cases hx : xor (!v) negate = true
      · have hv : v = negate := by cases v <;> cases negate <;> simp_all
        simp only [hx, if_true, true_iff]
        exact ⟨0, Nat.succ_pos n, by simpa [hv] using hc⟩
      · have hv : v ≠ negate := by cases v <;> cases negate <;> simp_all
        simp only [hx, if_false, Bool.false_eq_true]
        rw [ih]
        constructor
        · rintro ⟨i, hi, he⟩
          refine ⟨i + 1, Nat.succ_lt_succ hi, ?_⟩
          rw [List.drop_drop] at he
          rw [Nat.succ_mul]
          rw [Nat.add_comm] at he
          exact he
        · rintro ⟨i, hi, he⟩
          cases i with
          | zero =>
            simp only [Nat.zero_mul, List.drop_zero, hc, Option.some.injEq] at he
            exact absurd he hv
          | succ k =>
            refine ⟨k, Nat.lt_of_succ_lt_succ hi, ?_⟩
            rw [List.drop_drop, Nat.add_comm, ← Nat.succ_mul]
            exact he

theorem parseFrom_null_iff (lit : List Nat) (at_least : Nat) (maybe_more : Int)
    (negate : Bool) (rest : List Nat) (input : Nat) :
    parseFrom lit at_least maybe_more negate rest input = .null ↔
      required lit negate at_least rest input = .null := by
  unfold parseFrom
  cases hr : required lit negate at_least rest input with
  | null => simp
  | overrun => simp
  | abort => simp
  | cursor p =>
    simp only [reduceCtorEq, iff_false]
    by_cases hm : maybe_more < 0
    · simp only [hm, if_true]; exact moreUnbounded_ne_null _ _ _ _ _
    · simp only [hm, if_false]; exact moreBounded_ne_null _ _ _ _ _


/-- A list that holds a space splits at its first space. -/
theorem split_first_space : ∀ (bs : List Nat), 32 ∈ bs →
    ∃ q post, bs = q ++ 32 :: post ∧ 32 ∉ q ∧ bs.takeWhile (fun c => c != 32) = q
  | [], h => by simp at h
  | b :: bs, h => by
    by_cases hb : b = 32
    · subst hb
      exact ⟨[], bs, rfl, by simp, by simp⟩
    · have hmem : 32 ∈ bs := by
        rcases List.mem_cons.1 h with h | h
        · exact absurd h.symm hb
        · exact h
      obtain ⟨q, post, hq, hn, ht⟩ := split_first_space bs hmem
      refine ⟨b :: q, post, by simp [hq], ?_, ?_⟩
      · simp only [List.mem_cons, not_or]
        exact ⟨fun h => hb h.symm, hn⟩
      · simp [List.takeWhile_cons, hb, ht]

theorem takeWhile_no_space : ∀ (q post : List Nat), 32 ∉ q →
    (q ++ 32 :: post).takeWhile (fun c => c != 32) = q
  | [], _, _ => by simp
  | b :: q, post, h => by
    simp only [List.mem_cons, not_or] at h
    have hb : b ≠ 32 := fun e => h.1 e.symm
    simp [List.takeWhile_cons, hb, takeWhile_no_space q post h.2]

/-- The unbounded loop for the literal `" "` with `negate`: it stops at the
first space, and leaves the region when there is none. -/
theorem moreUnbounded_space : ∀ (rest : List Nat) (fuel input : Nat), rest.length < fuel →
    moreUnbounded [32] true fuel rest input =
      if 32 ∈ rest then .cursor (input + (rest.takeWhile (fun c => c != 32)).length)
      else .overrun
  | [], fuel, input, h => by
    cases fuel with
    | zero => simp at h
    | succ f => simp [moreUnbounded, strncmpEq]
  | b :: bs, fuel, input, h => by
    cases fuel with
    | zero => simp at h
    | succ f =>
      have hf : bs.length < f := by simpa using h
      by_cases hb : b = 32
      · subst hb
        simp [moreUnbounded, strncmpEq]
      · have hb2 : ¬ (32 = b) := fun e => hb e.symm
        simp only [moreUnbounded, strncmpEq, hb, if_false, Bool.xor_true, Bool.not_false,
          if_true, List.length_singleton, List.drop_succ_cons, List.drop_zero]
        rw [moreUnbounded_space bs f (input + 1) hf]
        simp [List.takeWhile_cons, hb, hb2, Nat.add_assoc, Nat.add_comm 1]

/-- The second matcher call of `main` on the bytes `rest` from the cursor. -/
theorem parseFrom_space (rest : List Nat) (input : Nat) :
    parseFrom [32] 1 (-1) true rest input =
      match rest with
      | [] => .overrun
      | b :: bs =>
        if b = 32 then .null
        else if 32 ∈ bs then
          .cursor (input + 1 + (bs.takeWhile (fun c => c != 32)).length)
        else .overrun := by
  cases rest with
  | nil => simp [parseFrom, required, strncmpEq]
  | cons b bs =>
    by_cases hb : b = 32
    · subst hb
      simp [parseFrom, required, strncmpEq]
    · simp only [parseFrom, required, strncmpEq, hb, if_false, Bool.not_false, Bool.xor_true,
        Bool.not_true, Bool.false_eq_true, List.length_singleton, Nat.add_sub_cancel_left,
        List.drop_succ_cons, List.drop_zero]
      simp only [show ((-1 : Int) < 0) = True from by simp, if_true]
      exact moreUnbounded_space bs _ _ (Nat.lt_succ_self _)


/-! ## The matcher: claims C8 and C9 -/

/-- C9: for a non-empty literal, every `at_least`, every `maybe_more` (negative
for unbounded) and every input, `linear_parse` returns `NULL` exactly when one
of the first `at_least` consecutive literal-length positions from the cursor is
compared with the verdict that the required phase rejects: a mismatch without
`negate`, a match with `negate`.  The optional phase never returns `NULL`. -/
theorem C9_null_iff_required_phase_fails (str mem : List Nat) (at_least : Nat)
    (maybe_more : Int) (negate : Bool) (input : Nat) (hstr : literal str ≠ []) :
    linear_parse str at_least maybe_more negate mem input = .null ↔
      ∃ i, i < at_least ∧
        strncmpEq (literal str) (mem.drop (input + i * (literal str).length)) = some negate := by
  unfold linear_parse
  simp only [hstr, if_false]
  rw [parseFrom_null_iff, required_null_iff _ _ hstr]
  constructor
  · rintro ⟨i, hi, he⟩
    refine ⟨i, hi, ?_⟩
    rw [List.drop_drop] at he
    exact he
  · rintro ⟨i, hi, he⟩
    refine ⟨i, hi, ?_⟩
    rw [List.drop_drop]
    exact he

/-- With `at_least = 2` on an input that starts with the literal only once the
matcher returns `NULL`. -/
theorem C9_null_iff_required_phase_fails_witness :
    literal (bytes "ab") ≠ [] ∧
      linear_parse (bytes "ab") 2 (-1) false (bytes "abxab" ++ [0]) 0 = .null :=
  ⟨by decide,
   (C9_null_iff_required_phase_fails (bytes "ab") (bytes "abxab" ++ [0]) 2 (-1) false 0
      (by decide)).2 ⟨1, by decide, by decide⟩⟩

/-- C8: when the byte at the cursor is not a space and a space follows at some
later position, the matcher called with the literal `" "`, `negate`,
`at_least = 1` and no upper bound returns the position of the first space: the
byte there is a space and no byte from the cursor up to there is one. -/
theorem C8_stops_at_first_space (mem : List Nat) (input j b : Nat)
    (h0 : mem[input]? = some b) (hb : b ≠ 32) (hj : input < j) (hs : mem[j]? = some 32) :
    ∃ k, linear_parse (bytes " ") 1 (-1) true mem input = .cursor k ∧
      input < k ∧ k ≤ j ∧ mem[k]? = some 32 ∧
      ∀ i, input ≤ i → i < k → ∃ c, mem[i]? = some c ∧ c ≠ 32 := by
  have hidx : ∀ i, (mem.drop input)[i]? = mem[input + i]? := fun i => List.getElem?_drop _ _ _
  cases hrest : mem.drop input with
  | nil =>
    have := hidx 0
    rw [hrest] at this
    simp [h0] at this
  | cons b' bs =>
    have hb' : b' = b := by
      have := hidx 0
      rw [hrest] at this
      simpa [h0] using this
    subst hb'
    have hbs : ∀ i, bs[i]? = mem[input + 1 + i]? := by
      intro i
      have := hidx (i + 1)
      rw [hrest] at this
      simpa [Nat.add_assoc, Nat.add_comm 1] using this
    have hmem : 32 ∈ bs := by
      have := hbs (j - input - 1)
      rw [show input + 1 + (j - input - 1) = j by omega, hs] at this
      exact List.getElem?_mem this
    obtain ⟨q, post, hq, hnq, htw⟩ := split_first_space bs hmem
    refine ⟨input + 1 + q.length, ?_, by omega, ?_, ?_, ?_⟩
    · unfold linear_parse
      rw [literal_space]
      simp only [List.cons_ne_nil, if_false, reduceCtorEq]
      rw [hrest, parseFrom_space]
      simp [hb, hmem, htw]
    · by_contra hlt
      have hlt : j - input - 1 < q.length := by omega
      have := hbs (j - input - 1)
      rw [show input + 1 + (j - input - 1) = j by omega, hs, hq,
        List.getElem?_append_left hlt] at this
      exact hnq (List.getElem?_mem this)
    · rw [← hbs, hq, List.getElem?_append_right (Nat.le_refl _)]
      simp
    · intro i hi hik
      rcases Nat.eq_or_lt_of_le hi with he | hgt
      · subst he
        exact ⟨b', h0, hb⟩
      · have hlt : i - input - 1 < q.length := by omega
        have := hbs (i - input - 1)
        rw [show input + 1 + (i - input - 1) = i by omega, hq,
          List.getElem?_append_left hlt] at this
        refine ⟨q[i - input - 1], ?_, ?_⟩
        · rw [← this]; exact List.getElem?_eq_getElem hlt
        · intro he
          exact hnq (he ▸ List.getElem_mem _)

/-- On `"abc def"` the matcher stops at position 3. -/
theorem C8_stops_at_first_space_witness :
    ∃ k, linear_parse (bytes " ") 1 (-1) true (bytes "abc def") 0 = .cursor k ∧
      0 < k ∧ k ≤ 3 ∧ (bytes "abc def")[k]? = some 32 ∧
      ∀ i, 0 ≤ i → i < k → ∃ c, (bytes "abc def")[i]? = some c ∧ c ≠ 32 :=
  C8_stops_at_first_space (bytes "abc def") 0 3 97 (by decide) (by decide) (by decide)
    (by decide)


/-! ## Facts about the stores into the request buffer -/

theorem blit_zero (buf data : List Nat) (h : data.length ≤ buf.length) :
    blit buf 0 data = data ++ buf.drop data.length := by
  unfold blit
  simp only [List.take_zero, List.nil_append, Nat.zero_add]
  apply List.take_of_length_le
  simp only [List.length_append, List.length_drop]
  omega

/-- The request buffer after `recv` stored `data` and the terminator was
written at `request_buffer[recv_bytes]`. -/
theorem recv_buffer (buf data : List Nat) (h : data.length < buf.length) :
    (blit buf 0 data).set data.length 0 = data ++ 0 :: buf.drop (data.length + 1) := by
  rw [blit_zero buf data (Nat.le_of_lt h)]
  rw [List.set_append_right _ _ (Nat.le_refl _), Nat.sub_self]
  cases hd : buf.drop data.length with
  | nil =>
    have := congrArg List.length hd
    simp only [List.length_drop, List.length_nil] at this
    omega
  | cons x xs =>
    have hx : buf.drop (data.length + 1) = xs := by
      rw [← List.drop_drop, hd]
      rfl
    simp [hx]

theorem take_strcpy (buf canned : List Nat) (h : canned.length < buf.length) :
    (strcpy buf canned).take (sizeof canned - 1) = canned := by
  unfold strcpy sizeof
  rw [blit_zero buf (canned ++ [0]) (by simpa using h)]
  simp [List.take_append_of_le_length]

theorem prefix_of_terminated (lit data tail : List Nat) (h0 : 0 ∉ lit)
    (h : lit <+: data ++ 0 :: tail) : lit <+: data := by
  obtain ⟨t, ht⟩ := h
  rcases List.append_eq_append_iff.1 ht with ⟨a, ha, _⟩ | ⟨c, hc, hct⟩
  · exact ⟨a, ha.symm⟩
  · cases c with
    | nil => exact ⟨[], by simpa using hc⟩
    | cons x xs =>
      simp only [List.cons_append, List.cons.injEq] at hct
      exact absurd (by rw [hc, ← hct.1]; simp) h0

/-- The first matcher call of `main`. -/
theorem linear_parse_get (mem : List Nat) (h : 5 ≤ mem.length) :
    linear_parse (bytes "GET /") 1 0 false mem 0 =
      if bytes "GET /" <+: mem then .cursor 5 else .null := by
  unfold linear_parse
  rw [literal_get]
  simp only [List.cons_ne_nil, if_false, reduceCtorEq, parseFrom, required, List.drop_zero]
  rw [strncmpEq_of_le _ _ (by simpa using h)]
  have hb : bytes "GET /" = [71, 69, 84, 32, 47] := by decide
  rw [hb]
  by_cases hp : [71, 69, 84, 32, 47] <+: mem
  · simp [hp, moreBounded]
  · simp [hp]


theorem bytes_get : bytes "GET /" = [71, 69, 84, 32, 47] := by decide

/-- `ResponseFmt` is its head, the `%.*s` conversion and its tail. -/
theorem responseFmt_split :
    ResponseFmt = ResponseFmtHead ++ bytes "%.*s" ++ ResponseFmtTail := by decide

theorem recv_data (req : List Nat) (h : req.length ≤ MAX_REQUEST_SIZE) :
    req.take MAX_REQUEST_SIZE = req := List.take_of_length_le h

theorem canned_lengths : BadRequest.length = 65 ∧ NotFound.length = 61 ∧
    InternalServerError.length = 85 ∧ XdgMimeCommand.length = 24 ∧
    REQUEST_BUFFER_SIZE = 1049 ∧ MAX_REQUEST_SIZE = 1024 := by decide

/-- A request that does not start with `GET /` ends in the 400 response. -/
theorem handle_not_get (s : State) (env : Env) (req : List Nat)
    (hbuf : REQUEST_BUFFER_SIZE ≤ s.request_buffer.length)
    (hlen : req.length ≤ MAX_REQUEST_SIZE)
    (hreq : req.take 5 ≠ bytes "GET /") :
    ∃ r, handle s (some req) env = .done r ∧ r.sends = [BadRequest] ∧ r.opens = [] ∧
      r.commands = [] := by
  obtain ⟨hBR, -, -, -, hRB, hMR⟩ := canned_lengths
  have hlt : req.length < s.request_buffer.length := by omega
  simp only [handle, recv_data req hlen]
  rw [recv_buffer _ _ hlt]
  rw [linear_parse_get _ (by simp only [List.length_append, List.length_cons, List.length_drop]; omega)]
  have hnp : ¬ (bytes "GET /" <+: req ++ 0 :: s.request_buffer.drop (req.length + 1)) := by
    intro hp
    have hp2 := prefix_of_terminated _ _ _ (by decide) hp
    have := List.prefix_iff_eq_take.1 hp2
    rw [bytes_get] at this hreq
    exact hreq (by simpa using this.symm)
  simp only [hnp, if_false, sendError]
  refine ⟨_, rfl, ?_, rfl, rfl⟩
  simp only [List.nil_append]
  rw [take_strcpy]
  simp only [List.length_append, List.length_cons, List.length_drop]
  omega


theorem cstr_append : ∀ (p t : List Nat), 0 ∉ p → cstr (p ++ 0 :: t) = some p
  | [], _, _ => by simp [cstr]
  | b :: p, t, h => by
    simp only [List.mem_cons, not_or] at h
    have hb : b ≠ 0 := fun e => h.1 e.symm
    simp [cstr, hb, cstr_append p t h.2]

theorem cstrN_append : ∀ (m t : List Nat), 0 ∉ m → cstrN m.length (m ++ t) = some m
  | [], _, _ => by simp [cstrN]
  | b :: m, t, h => by
    simp only [List.mem_cons, not_or] at h
    have hb : b ≠ 0 := fun e => h.1 e.symm
    simp [cstrN, hb, cstrN_append m t h.2]

/-- The second matcher call of `main` on a path `q` that a space ends. -/
theorem linear_parse_path (pre q post : List Nat) (hne : q ≠ []) (hq : 32 ∉ q) :
    linear_parse (bytes " ") 1 (-1) true (pre ++ q ++ 32 :: post) pre.length
      = .cursor (pre.length + q.length) := by
  unfold linear_parse
  rw [literal_space]
  simp only [List.cons_ne_nil, if_false, reduceCtorEq, List.append_assoc,
    List.drop_left, parseFrom_space]
  cases q with
  | nil => exact absurd rfl hne
  | cons b q =>
    simp only [List.mem_cons, not_or] at hq
    have hb : b ≠ 32 := fun e => hq.1 e.symm
    simp [hb, takeWhile_no_space q post hq.2, Nat.add_assoc, Nat.add_comm 1]

/-- The second matcher call of `main` when a space follows `GET /` at once. -/
theorem linear_parse_empty_path (pre post : List Nat) :
    linear_parse (bytes " ") 1 (-1) true (pre ++ 32 :: post) pre.length = .null := by
  unfold linear_parse
  rw [literal_space]
  simp [parseFrom_space]

/-- Up to `open`: a request `GET /p rest` with a non-empty path `p` free of
spaces and NULs reaches `open` with the name `p`. -/
theorem handle_path (s : State) (env : Env) (p rest : List Nat)
    (hbuf : REQUEST_BUFFER_SIZE ≤ s.request_buffer.length)
    (hlen : (bytes "GET /" ++ p ++ 32 :: rest).length ≤ MAX_REQUEST_SIZE)
    (hne : p ≠ []) (h32 : 32 ∉ p) (h0 : 0 ∉ p) :
    handle s (some (bytes "GET /" ++ p ++ 32 :: rest)) env =
      serveFile env s.mime_type
        (bytes "GET /" ++ p ++ 0 :: (rest ++ 0 ::
          s.request_buffer.drop ((bytes "GET /" ++ p ++ 32 :: rest).length + 1)))
        [(0, (bytes "GET /" ++ p ++ 32 :: rest).length),
          ((bytes "GET /" ++ p ++ 32 :: rest).length, 1), (5 + p.length, 1)]
        p 5 (5 + p.length) := by
  obtain ⟨-, -, -, -, hRB, hMR⟩ := canned_lengths
  have hlt : (bytes "GET /" ++ p ++ 32 :: rest).length < s.request_buffer.length := by omega
  simp only [handle, recv_data _ hlen]
  rw [recv_buffer _ _ hlt]
  generalize s.request_buffer.drop ((bytes "GET /" ++ p ++ 32 :: rest).length + 1) = tail
  generalize (bytes "GET /" ++ p ++ 32 :: rest).length = n
  rw [linear_parse_get _ (by simp [bytes_get])]
  have hpre : bytes "GET /" <+: bytes "GET /" ++ p ++ 32 :: rest ++ 0 :: tail :=
    ⟨p ++ 32 :: rest ++ 0 :: tail, by simp⟩
  simp only [hpre, if_true]
  have hshape : bytes "GET /" ++ p ++ 32 :: rest ++ 0 :: tail
      = bytes "GET /" ++ p ++ 32 :: (rest ++ 0 :: tail) := by simp
  have h5 : (bytes "GET /").length = 5 := by decide
  rw [hshape]
  have hpp := linear_parse_path (bytes "GET /") p (rest ++ 0 :: tail) hne h32
  rw [h5] at hpp
  simp only [hpp]
  have hset : (bytes "GET /" ++ p ++ 32 :: (rest ++ 0 :: tail)).set (5 + p.length) 0
      = bytes "GET /" ++ p ++ 0 :: (rest ++ 0 :: tail) := by
    rw [List.set_append_right _ _ (by simp [h5])]
    simp [h5]
  rw [hset]
  have hdrop : (bytes "GET /" ++ p ++ 0 :: (rest ++ 0 :: tail)).drop 5
      = p ++ 0 :: (rest ++ 0 :: tail) := by
    rw [List.append_assoc, ← h5, List.drop_left]
  rw [hdrop, cstr_append _ _ h0]
  simp


theorem blit_eq (dst src : List Nat) (off : Nat) (h : off + src.length ≤ dst.length) :
    blit dst off src = dst.take off ++ src ++ dst.drop (off + src.length) := by
  unfold blit
  apply List.take_of_length_le
  simp only [List.length_append, List.length_take, List.length_drop]
  omega

/-- The request buffer after the path was moved behind the command prefix, the
prefix was copied in front of it and the terminator was written. -/
theorem command_buffer (buf p : List Nat) (h : XdgMimeCommand.length + p.length < buf.length) :
    (blit (blit buf XdgMimeCommand.length p) 0 XdgMimeCommand).set
        (XdgMimeCommand.length + p.length) 0
      = XdgMimeCommand ++ p ++ 0 :: buf.drop (XdgMimeCommand.length + p.length + 1) := by
  rw [blit_eq buf p _ (Nat.le_of_lt h)]
  have hl : (buf.take XdgMimeCommand.length).length = XdgMimeCommand.length := by
    rw [List.length_take]; omega
  rw [blit_zero _ _ (by simp only [List.length_append, hl]; omega)]
  have hd : (buf.take XdgMimeCommand.length ++ p ++
      buf.drop (XdgMimeCommand.length + p.length)).drop XdgMimeCommand.length
      = p ++ buf.drop (XdgMimeCommand.length + p.length) := by
    rw [List.append_assoc]
    conv => lhs; arg 1; rw [← hl]
    exact List.drop_left _ _
  rw [hd, ← List.append_assoc]
  rw [List.set_append_right _ _ (by simp)]
  simp only [List.length_append, Nat.sub_self]
  cases hdr : buf.drop (XdgMimeCommand.length + p.length) with
  | nil =>
    have := congrArg List.length hdr
    simp only [List.length_drop, List.length_nil] at this
    omega
  | cons x xs =>
    have hx : buf.drop (XdgMimeCommand.length + p.length + 1) = xs := by
      rw [← List.drop_drop, hdr]
      rfl
    simp [hx]

theorem read_process_ok (popen : List Nat → Option Proc) (command output out : List Nat)
    (max_sz : Nat) (hp : popen command = some ⟨out, false⟩) (hl : out.length < max_sz) :
    read_process popen command output max_sz = ((out.length : Int), blit output 0 out) := by
  simp [read_process, hp, hl, List.take_of_length_le (Nat.le_of_lt hl)]


/-- From `open` to `read_process` for a file that opens and stats: the command
handed to `popen` is the prefix followed by the path. -/
theorem serveFile_ok (env : Env) (mime p T : List Nat) (writes : List (Nat × Nat)) (n : Nat)
    (hbuf : XdgMimeCommand.length + p.length < (bytes "GET /" ++ p ++ 0 :: T).length)
    (h0 : 0 ∉ p) (hopen : env.openOk p = true) (hstat : env.fstat = some n) :
    serveFile env mime (bytes "GET /" ++ p ++ 0 :: T) writes p 5 (5 + p.length) =
      if (read_process env.popen (XdgMimeCommand ++ p) mime MAX_REQUEST_SIZE).1 < 0 then
        sendError (commandBuffer p T) InternalServerError
          (read_process env.popen (XdgMimeCommand ++ p) mime MAX_REQUEST_SIZE).2
          [p] [XdgMimeCommand ++ p] (commandWrites writes p) [] false
      else
        respond env (commandBuffer p T)
          (read_process env.popen (XdgMimeCommand ++ p) mime MAX_REQUEST_SIZE).2
          [p] [XdgMimeCommand ++ p] (commandWrites writes p)
          (read_process env.popen (XdgMimeCommand ++ p) mime MAX_REQUEST_SIZE).1 n := by
  have h5 : (bytes "GET /").length = 5 := by decide
  have hsub : 5 + p.length - 5 = p.length := by omega
  have hmove : ((bytes "GET /" ++ p ++ 0 :: T).drop 5).take p.length = p := by
    rw [List.append_assoc, ← h5, List.drop_left]
    simp
  have hsz : sizeof XdgMimeCommand - 1 = XdgMimeCommand.length := by simp [sizeof]
  have hx0 : 0 ∉ XdgMimeCommand ++ p := by
    intro h
    rcases List.mem_append.1 h with h | h
    · exact absurd h (by decide)
    · exact h0 h
  simp only [serveFile, hopen, hstat, Bool.not_true, Bool.false_eq_true, if_false, hsz, hsub, hmove]
  rw [command_buffer _ _ hbuf, cstr_append _ _ hx0]
  rfl

/-- From `malloc` on, when the MIME buffer starts with `m`, one more byte was
counted, and `malloc`, `read` and `send` succeed: the 200 response. -/
theorem respond_ok (env : Env) (buf m t file : List Nat) (opens commands : List (List Nat))
    (writes : List (Nat × Nat)) (n : Nat) (hm0 : 0 ∉ m)
    (hmalloc : env.mallocOk (35 + (m.length + 1) + n) = true)
    (hread : env.read n = some file) (hfile : file.length = n) (hsend : env.sendOk = true) :
    respond env buf (m ++ t) opens commands writes ((m.length + 1 : Nat) : Int) n =
      .done
        { sends := [ResponseFmtHead ++ m ++ ResponseFmtTail ++ file]
          opens := opens
          commands := commands
          writes := writes
          heap_overflow := false
          state := ⟨buf, m ++ t⟩ } := by
  have hsize : sizeof ResponseFmt - 4 + ((m.length + 1 : Nat) : Int).toNat - 1 + n
      = 35 + (m.length + 1) + n := by
    have : sizeof ResponseFmt = 40 := by decide
    rw [this, Int.toNat_ofNat]
    omega
  have hprec : ((m.length + 1 : Nat) : Int) - 1 = (m.length : Int) := by
    push_cast; omega
  have hhead : ResponseFmtHead.length = 31 := by decide
  have htail : ResponseFmtTail.length = 4 := by decide
  unfold respond
  simp only [hsize, hmalloc, Bool.not_true, Bool.false_eq_true, if_false, hprec]
  have hneg : ¬ ((m.length : Int) < 0) := by omega
  simp only [hneg, if_false, Int.toNat_ofNat, cstrN_append m t hm0, hread, hsend, if_true]
  have hbody : file.take n = file := List.take_of_length_le (Nat.le_of_eq hfile)
  simp only [hbody, hfile, List.length_range, List.drop_length, List.map_nil, List.append_nil,
    List.length_append, hhead, htail]
  have h1 : ¬ (35 + (m.length + 1) + n < 31 + m.length + 4 + 1) := by omega
  have h2 : ¬ (35 + (m.length + 1) + n < 31 + m.length + 4 + n) := by omega
  simp [h1, h2]


theorem initial_request_buffer_length :
    State.initial.request_buffer.length = REQUEST_BUFFER_SIZE := List.length_replicate _ _

theorem initial_mime_type_length :
    State.initial.mime_type.length = MAX_REQUEST_SIZE := List.length_replicate _ _

/-! ## The request pipeline: claims C1 to C4 -/

/-- C1: for a request `GET /p rest` with `p` non-empty and free of spaces and
NULs, when `open` of `p` succeeds, `fstat` reports `n`, the command for `p`
prints `m` and one more byte (`m` free of NULs), `malloc` succeeds, `read`
delivers the `n` bytes of the file and `send` succeeds, the one buffer sent is
the status line, `Content-Type: m`, the empty line and the file, of length
`35 + |m| + n`. -/
theorem C1_ok_response (s : State) (env : Env) (p rest m file : List Nat) (b n : Nat)
    (hbuf : REQUEST_BUFFER_SIZE ≤ s.request_buffer.length)
    (hmime : MAX_REQUEST_SIZE ≤ s.mime_type.length)
    (hlen : (bytes "GET /" ++ p ++ 32 :: rest).length ≤ MAX_REQUEST_SIZE)
    (hne : p ≠ []) (h32 : 32 ∉ p) (h0 : 0 ∉ p)
    (hopen : env.openOk p = true) (hstat : env.fstat = some n)
    (hcmd : env.popen (XdgMimeCommand ++ p) = some ⟨m ++ [b], false⟩)
    (hm0 : 0 ∉ m) (hmlen : (m ++ [b]).length < MAX_REQUEST_SIZE)
    (hmalloc : env.mallocOk (35 + (m.length + 1) + n) = true)
    (hread : env.read n = some file) (hfile : file.length = n)
    (hsend : env.sendOk = true) :
    ∃ r, handle s (some (bytes "GET /" ++ p ++ 32 :: rest)) env = .done r ∧
      r.sends = [bytes "HTTP/1.1 200 OK\r\nContent-Type: " ++ m ++ bytes "\r\n\r\n" ++ file] ∧
      (bytes "HTTP/1.1 200 OK\r\nContent-Type: " ++ m ++ bytes "\r\n\r\n" ++ file).length
        = 35 + m.length + n ∧
      r.opens = [p] ∧ r.commands = [XdgMimeCommand ++ p] ∧ r.heap_overflow = false := by
  obtain ⟨-, -, -, hX, hRB, hMR⟩ := canned_lengths
  have h5 : (bytes "GET /").length = 5 := by decide
  rw [handle_path s env p rest hbuf hlen hne h32 h0]
  have hT : XdgMimeCommand.length + p.length <
      (bytes "GET /" ++ p ++ 0 :: (rest ++ 0 ::
        s.request_buffer.drop ((bytes "GET /" ++ p ++ 32 :: rest).length + 1))).length := by
    simp only [List.length_append, List.length_cons, List.length_drop, h5] at hlen ⊢
    omega
  rw [serveFile_ok env _ p _ _ n hT h0 hopen hstat]
  rw [read_process_ok env.popen _ _ _ _ hcmd hmlen]
  have hpos : ¬ (((m ++ [b]).length : Int) < 0) := by omega
  simp only [hpos, if_false]
  rw [blit_zero _ _ (by omega)]
  have hl : (m ++ [b]).length = m.length + 1 := by simp
  rw [hl, List.append_assoc m [b]]
  rw [respond_ok env _ m _ file _ _ _ n hm0 hmalloc hread hfile hsend]
  refine ⟨_, rfl, rfl, ?_, rfl, rfl, rfl⟩
  have hh : (bytes "HTTP/1.1 200 OK\r\nContent-Type: ").length = 31 := by decide
  have ht : (bytes "\r\n\r\n").length = 4 := by decide
  simp only [List.length_append, hh, ht, hfile]
  omega

/-- The request `GET /foo.txt HTTP/1.1` for a file that holds `hello`, typed
`text/plain`. -/
theorem C1_ok_response_witness :
    ∃ r, handle State.initial
        (some (bytes "GET /" ++ bytes "foo.txt" ++ 32 :: bytes "HTTP/1.1\r\n\r\n")) envServing
          = .done r ∧
      r.sends = [bytes "HTTP/1.1 200 OK\r\nContent-Type: " ++ bytes "text/plain" ++
        bytes "\r\n\r\n" ++ bytes "hello"] ∧
      (bytes "HTTP/1.1 200 OK\r\nContent-Type: " ++ bytes "text/plain" ++
        bytes "\r\n\r\n" ++ bytes "hello").length = 35 + (bytes "text/plain").length + 5 ∧
      r.opens = [bytes "foo.txt"] ∧ r.commands = [XdgMimeCommand ++ bytes "foo.txt"] ∧
      r.heap_overflow = false :=
  C1_ok_response State.initial envServing (bytes "foo.txt") (bytes "HTTP/1.1\r\n\r\n")
    (bytes "text/plain") (bytes "hello") 10 5
    (Nat.le_of_eq initial_request_buffer_length.symm)
    (Nat.le_of_eq initial_mime_type_length.symm)
    (by decide) (by decide) (by decide) (by decide) rfl rfl rfl (by decide) (by decide)
    rfl rfl (by decide) rfl


/-- C2: every received request of at most 1024 bytes, the empty one included,
whose first five bytes are not `GET /` is answered with exactly the 400
response; no file is opened and no command is run. -/
theorem C2_bad_request (s : State) (env : Env) (req : List Nat)
    (hbuf : REQUEST_BUFFER_SIZE ≤ s.request_buffer.length)
    (hlen : req.length ≤ MAX_REQUEST_SIZE)
    (hreq : req.take 5 ≠ bytes "GET /") :
    ∃ r, handle s (some req) env = .done r ∧
      r.sends = [bytes
        "HTTP/1.1 400 Bad Request\r\nContent-Type: text/plain\r\n\r\nBad Request"] ∧
      r.opens = [] ∧ r.commands = [] :=
  handle_not_get s env req hbuf hlen hreq

/-- The empty request is answered with the 400 response. -/
theorem C2_bad_request_witness :
    ∃ r, handle State.initial (some []) envServing = .done r ∧
      r.sends = [bytes
        "HTTP/1.1 400 Bad Request\r\nContent-Type: text/plain\r\n\r\nBad Request"] ∧
      r.opens = [] ∧ r.commands = [] :=
  C2_bad_request State.initial envServing []
    (Nat.le_of_eq initial_request_buffer_length.symm) (by decide) (by decide)

/-- C3: for a request `GET /p rest` with `p` non-empty and free of spaces and
NULs, when `open` fails the one buffer sent is exactly the 404 response, and
the path handed to `open` is `p`. -/
theorem C3_not_found (s : State) (env : Env) (p rest : List Nat)
    (hbuf : REQUEST_BUFFER_SIZE ≤ s.request_buffer.length)
    (hlen : (bytes "GET /" ++ p ++ 32 :: rest).length ≤ MAX_REQUEST_SIZE)
    (hne : p ≠ []) (h32 : 32 ∉ p) (h0 : 0 ∉ p)
    (hopen : env.openOk p = false) :
    ∃ r, handle s (some (bytes "GET /" ++ p ++ 32 :: rest)) env = .done r ∧
      r.sends = [bytes "HTTP/1.1 404 Not Found\r\nContent-Type: text/plain\r\n\r\nNot Found"] ∧
      r.opens = [p] ∧ r.commands = [] := by
  obtain ⟨-, hNF, -, -, hRB, hMR⟩ := canned_lengths
  have h5 : (bytes "GET /").length = 5 := by decide
  rw [handle_path s env p rest hbuf hlen hne h32 h0]
  simp only [serveFile, hopen, Bool.not_false, if_true, sendError]
  refine ⟨_, rfl, ?_, rfl, rfl⟩
  simp only [List.nil_append]
  rw [take_strcpy]
  · rfl
  · simp only [List.length_append, List.length_cons, List.length_drop, h5] at hlen ⊢
    omega

/-- The request `GET /nope HTTP/1.1` when nothing opens. -/
theorem C3_not_found_witness :
    ∃ r, handle State.initial (some (bytes "GET /" ++ bytes "nope" ++ 32 :: bytes "HTTP/1.1"))
        envMissing = .done r ∧
      r.sends = [bytes "HTTP/1.1 404 Not Found\r\nContent-Type: text/plain\r\n\r\nNot Found"] ∧
      r.opens = [bytes "nope"] ∧ r.commands = [] :=
  C3_not_found State.initial envMissing (bytes "nope") (bytes "HTTP/1.1")
    (Nat.le_of_eq initial_request_buffer_length.symm) (by decide) (by decide) (by decide)
    (by decide) rfl

/-- C4, as the code has it: every request that begins with `GET / ` (a space
right after the prefix) fails the second matcher call, whose required phase
asks for one byte that is not a space; the request is answered with exactly the
400 response, and neither `open` nor the command is reached. -/
theorem C4_empty_path_rejected (s : State) (env : Env) (rest : List Nat)
    (hbuf : REQUEST_BUFFER_SIZE ≤ s.request_buffer.length)
    (hlen : (bytes "GET / " ++ rest).length ≤ MAX_REQUEST_SIZE) :
    ∃ r, handle s (some (bytes "GET / " ++ rest)) env = .done r ∧
      r.sends = [BadRequest] ∧ r.opens = [] ∧ r.commands = [] := by
  obtain ⟨hBR, -, -, -, hRB, hMR⟩ := canned_lengths
  have h6 : (bytes "GET / ").length = 6 := by decide
  have hlt : (bytes "GET / " ++ rest).length < s.request_buffer.length := by omega
  simp only [handle, recv_data _ hlen]
  rw [recv_buffer _ _ hlt]
  have hdl : (s.request_buffer.drop ((bytes "GET / " ++ rest).length + 1)).length
      = s.request_buffer.length - ((bytes "GET / " ++ rest).length + 1) := List.length_drop _ _
  generalize s.request_buffer.drop ((bytes "GET / " ++ rest).length + 1) = tail at hdl ⊢
  have hshape : bytes "GET / " ++ rest ++ 0 :: tail
      = bytes "GET /" ++ 32 :: (rest ++ 0 :: tail) := by
    have : bytes "GET / " = bytes "GET /" ++ [32] := by decide
    rw [this]; simp
  rw [hshape]
  rw [linear_parse_get _ (by simp [bytes_get])]
  have hpre : bytes "GET /" <+: bytes "GET /" ++ 32 :: (rest ++ 0 :: tail) := ⟨_, rfl⟩
  have h5 : (bytes "GET /").length = 5 := by decide
  have hnull := linear_parse_empty_path (bytes "GET /") (rest ++ 0 :: tail)
  rw [h5] at hnull
  simp only [hpre, if_true, hnull, sendError]
  refine ⟨_, rfl, ?_, rfl, rfl⟩
  simp only [List.nil_append]
  rw [take_strcpy]
  have hl := congrArg List.length hshape
  simp only [List.length_append, List.length_cons, h6, h5] at hl hlen hlt hdl ⊢
  omega

/-- The request `GET / HTTP/1.1` is answered with the 400 response. -/
theorem C4_empty_path_rejected_witness :
    ∃ r, handle State.initial (some (bytes "GET / " ++ bytes "HTTP/1.1\r\n\r\n")) envServing
        = .done r ∧
      r.sends = [BadRequest] ∧ r.opens = [] ∧ r.commands = [] :=
  C4_empty_path_rejected State.initial envServing (bytes "HTTP/1.1\r\n\r\n")
    (Nat.le_of_eq initial_request_buffer_length.symm) (by decide)

set_option maxRecDepth 100000 in
/-- C4 as stated fails: on `GET / HTTP/1.1`, in an environment where every call
would succeed, the second matcher call returns `NULL`, the 400 response is what
is sent and `open` is never called. -/
theorem C4_counterexample :
    linear_parse (bytes " ") 1 (-1) true
        ((blit State.initial.request_buffer 0 (bytes "GET / HTTP/1.1\r\n\r\n")).set 18 0) 5
      = .null ∧
    (handle State.initial (some (bytes "GET / HTTP/1.1\r\n\r\n")) envServing).result.map
        (fun r => (r.sends, r.opens))
      = some ([BadRequest], []) := by
  decide


/-! ## Where the code departs from claims C5, C6, C7 and C10 -/

set_option maxRecDepth 100000 in
/-- C5 at the failing input, the six received bytes `GET /x`.  As first request
of a fresh server the second matcher call walks over the terminator and the
zero bytes behind it and leaves the buffer.  After a request `HELLO` that was
answered 400, the call walks over the terminator, stops at the space that the
old response left at index 8 and returns that cursor: `open` is called with
`x`, and the response is the 404 one, not the 400 one. -/
theorem C5_scan_ignores_terminator :
    handle State.initial (some (bytes "GET /x")) envMissing = .overrun ∧
    (serve State.initial [(some (bytes "HELLO"), envMissing),
        (some (bytes "GET /x"), envMissing)]).map
        (fun h => h.result.map (fun r => (r.sends, r.opens)))
      = [some ([BadRequest], []), some ([NotFound], [bytes "x"])] ∧
    linear_parse (bytes " ") 1 (-1) true
        ((blit (strcpy State.initial.request_buffer BadRequest) 0 (bytes "GET /x")).set 6 0) 5
      = .cursor 8 := by
  decide

set_option maxRecDepth 100000 in
/-- C6 at the failing input: the file opens and stats, `popen` succeeds and the
command prints nothing.  `read_process` returns 0, which is not negative, so a
200 response is assembled and sent, with the content type taken from the MIME
buffer as it was; the 500 response is not sent. -/
theorem C6_silent_tool_gets_200 :
    (read_process envSilent.popen (XdgMimeCommand ++ bytes "x") State.initial.mime_type
        MAX_REQUEST_SIZE).1 = 0 ∧
    (handle State.initial (some (bytes "GET /x HTTP/1.1\r\n\r\n")) envSilent).sent
      = some [bytes "HTTP/1.1 200 OK\r\nContent-Type: \r\n\r\nhello"] ∧
    (handle State.initial (some (bytes "GET /x HTTP/1.1\r\n\r\n")) envSilent).sent
      ≠ some [InternalServerError] := by
  decide

set_option maxRecDepth 100000 in
/-- C7 at the failing input: the same request in the same environment (the
command prints nothing) gets different bytes on a fresh server and after a
request that left `text/plain` in the MIME buffer; in the second run the
handler also writes past the block it allocated.  Likewise `GET /x` leaves the
buffer on a fresh server and is answered 404 after a 400 response. -/
theorem C7_response_depends_on_old_buffers :
    (serve State.initial [(some (bytes "GET /foo.txt HTTP/1.1\r\n\r\n"), envSilent)]).map
        Handled.sent
      = [some [bytes "HTTP/1.1 200 OK\r\nContent-Type: \r\n\r\nhello"]] ∧
    (serve State.initial [(some (bytes "GET /foo.txt HTTP/1.1\r\n\r\n"), envServing),
        (some (bytes "GET /foo.txt HTTP/1.1\r\n\r\n"), envSilent)]).map
        (fun h => h.result.map (fun r => (r.sends, r.heap_overflow)))
      = [some ([bytes "HTTP/1.1 200 OK\r\nContent-Type: text/plain\r\n\r\nhello"], false),
         some ([bytes "HTTP/1.1 200 OK\r\nContent-Type: text/plain\n\r\n\r\nhello"], true)] ∧
    (serve State.initial [(some (bytes "GET /x"), envMissing)]).map Handled.sent = [none] ∧
    (serve State.initial [(some [], envMissing), (some (bytes "GET /x"), envMissing)]).map
        Handled.sent
      = [some [BadRequest], some [NotFound]] := by
  decide

set_option maxRecDepth 100000 in
/-- C10 at the failing input, `GET /x` as first request of a fresh server: the
second matcher call leaves the 1049 bytes of the buffer.  When the byte after
the buffer is a space, the cursor it returns is 1049 and `*path_end = 0` is a
store at index 1049. -/
theorem C10_store_past_the_buffer :
    handle State.initial (some (bytes "GET /x")) envMissing = .overrun ∧
    (handle ⟨State.initial.request_buffer ++ [32], State.initial.mime_type⟩
        (some (bytes "GET /x")) envMissing).result.map (fun r => r.writes)
      = some [(0, 6), (6, 1), (1049, 1), (0, 62)] ∧
    State.initial.request_buffer.length = 1049 := by
  decide

end Webserverc
